import Mathlib

/-!
Verification of `plumbum/machines/parallel.py`: a shallow embedding of the
aggregate-command / aggregate-process / cluster layer, with theorems checking
the natural-language specification against the code.

Conventions of the embedding:
* Python lists become Lean `List`s; mutation becomes explicit state passing.
* Python exceptions become `Except` / `Option` error values.
* Exit codes are `Int` (`None` from `poll` is `Option.none`).
-/

namespace Parallel

/-! ### Commands (`BaseCommand` / `ConcurrentCommand`)

A command is either a plain `BaseCommand` (modelled by the token list its
`formulate` renders to) or a `ConcurrentCommand` holding an ordered list of
member commands (`self.commands`). -/

inductive Cmd where
  | basic (tokens : List String)
  | concurrent (commands : List Cmd)
  deriving Repr

/-- `make_concurrent(self, rhs)` (the `__and__` operator): the `isinstance`
dispatch of the source, with the in-place `extend` / `append` / `insert(0, ·)`
mutations rendered as value construction. -/
def make_concurrent (self rhs : Cmd) : Cmd :=
  match self, rhs with
  | .concurrent cs, .concurrent rs => .concurrent (cs ++ rs)
  | .concurrent cs, r => .concurrent (cs ++ [r])
  | l, .concurrent rs => .concurrent (l :: rs)
  | l, r => .concurrent [l, r]

mutual

/-- `ConcurrentCommand.formulate`: `form = ["("]`, then for each member command
extend with its formulated tokens and append `"&"`, then `form + [")"]`.
A plain command formulates to its own tokens. -/
def formulate : Cmd → List String
  | .basic tokens => tokens
  | .concurrent cmds => formulateLoop cmds ["("] ++ [")"]

/-- The `for cmd in self.commands` loop of `ConcurrentCommand.formulate`,
threading the `form` accumulator. -/
def formulateLoop : List Cmd → List String → List String
  | [], form => form
  | cmd :: rest, form => formulateLoop rest ((form ++ formulate cmd) ++ ["&"])

end

mutual

/-- Rendering claimed by the spec sentence: `"("`, the members' formulated
tokens joined with `"&"` separators *between* consecutive members, `")"`.
(Spec-side definition, for comparison with `formulate` above.) -/
def specFormulate : Cmd → List String
  | .basic tokens => tokens
  | .concurrent cmds => ("(" :: specJoin cmds) ++ [")"]

/-- `"&"`-joined member renderings, separator only between members. -/
def specJoin : List Cmd → List String
  | [] => []
  | [cmd] => specFormulate cmd
  | cmd :: rest => specFormulate cmd ++ "&" :: specJoin rest

end

/-! ### Python error values -/

/-- The exceptions the embedded code can raise. `commandNotFound` is
`plumbum.commands.processes.CommandNotFound`, `emptyCluster` is
`EmptyCluster`; `transportError` stands for any unrelated error escaping a
machine operation (e.g. a dropped connection). -/
inductive PyErr where
  | valueError
  | typeError
  | indexError
  | emptyCluster
  | commandNotFound
  | transportError
  deriving Repr, DecidableEq

/-- Python truthiness of the optional `input` argument: `None` and the empty
string are falsy, any non-empty string is truthy. -/
def pyTruthy : Option String → Bool
  | none => false
  | some s => s != ""

/-! ### Child process handles and `ConcurrentPopen`

A child `ProcessHandle` is modelled by the exit code it will eventually report
(`finalRc`), whether its `poll` currently reports it finished, its drained
stdout/stderr, and an instrumentation counter of how often it has been
polled (to make "does not query the child" provable). -/

structure Proc where
  finalRc : Int
  finished : Bool
  out : String
  err : String
  polls : Nat
  deriving Repr, DecidableEq

/-- A child's non-blocking `poll()`: `None` while running, the exit code once
finished; bumps the instrumentation counter. -/
def Proc.poll (p : Proc) : Option Int × Proc :=
  ((if p.finished then some p.finalRc else none), { p with polls := p.polls + 1 })

/-- A child's blocking `wait()`: the child is finished afterwards and its exit
code is returned. -/
def Proc.wait (p : Proc) : Int × Proc :=
  (p.finalRc, { p with finished := true })

/-- A child's `communicate()`: drains the streams (blocking until the child is
done), returning `(stdout, stderr)`. -/
def Proc.communicate (p : Proc) : (String × String) × Proc :=
  ((p.out, p.err), { p with finished := true })

/-- `ConcurrentPopen`: the list of child handles plus the cached
`self.returncode` (initialised to `None`). -/
structure ConcurrentPopen where
  procs : List Proc
  returncode : Option Int
  deriving Repr, DecidableEq

/-- The `returncode = 0; for rc in rcs: if rc != 0: returncode = rc; break`
loop of `ConcurrentPopen.poll`, over the (all non-`None`) child codes. -/
def firstNonzero : List Int → Int
  | [] => 0
  | rc :: rest => if rc ≠ 0 then rc else firstNonzero rest

/-- `ConcurrentPopen.poll`: return the cached `returncode` if set; otherwise
poll every child once; if any child is still running return `None` without
caching; otherwise cache and return the first non-zero child code (0 if all
succeeded). -/
def ConcurrentPopen.poll (cp : ConcurrentPopen) : Option Int × ConcurrentPopen :=
  match cp.returncode with
  | some rc => (some rc, cp)
  | none =>
      let polled := cp.procs.map Proc.poll
      let rcs := polled.map Prod.fst
      let procs1 := polled.map Prod.snd
      if rcs.any (fun rc => rc.isNone) then
        (none, { cp with procs := procs1 })
      else
        let rc := firstNonzero (rcs.filterMap id)
        (some rc, { procs := procs1, returncode := some rc })

/-- `ConcurrentPopen.wait`: `proc.wait()` on every child, then delegate to
`poll()` for the combined status. -/
def ConcurrentPopen.wait (cp : ConcurrentPopen) : Option Int × ConcurrentPopen :=
  ConcurrentPopen.poll { cp with procs := cp.procs.map (fun p => (Proc.wait p).2) }

/-- `tuple(zip(*out_err_tuples))`: transposes a non-empty list of
`(stdout, stderr)` pairs into `[all stdouts, all stderrs]`; `zip()` of nothing
is empty. -/
def zipStar (pairs : List (String × String)) : List (List String) :=
  if pairs.isEmpty then [] else [pairs.map Prod.fst, pairs.map Prod.snd]

/-- `ConcurrentPopen.communicate`: reject truthy `input` with `ValueError`;
otherwise `proc.communicate()` on every child in member order, a final
`self.wait()`, and the transposed output lists. -/
def ConcurrentPopen.communicate (cp : ConcurrentPopen) (input : Option String) :
    Except PyErr (List (List String)) × ConcurrentPopen :=
  if pyTruthy input then
    (.error .valueError, cp)
  else
    let drained := cp.procs.map Proc.communicate
    let out_err_tuples := drained.map Prod.fst
    let procs1 := drained.map Prod.snd
    let waited := ConcurrentPopen.wait { cp with procs := procs1 }
    (.ok (zipStar out_err_tuples), waited.2)

/-! ### Clusters (`Cluster`)

A machine is an external collaborator: for the cluster operations under
verification it is modelled by its program-name lookup (`mach[progname]`,
which may raise `CommandNotFound` or any other error) and its `which`. -/

structure Machine where
  lookup : String → Except PyErr Cmd
  whichPath : String → String

/-- `Cluster.__init__`: an ordered (possibly empty) list of machines. -/
structure Cluster where
  machines : List Machine

/-- The three shapes `Cluster.__getitem__` can produce, depending on the
index type. -/
inductive GetItemResult where
  | machine (m : Machine)
  | subcluster (c : Cluster)
  | command (c : Cmd)

/-- The index argument of `Cluster.__getitem__`, tagged by Python type:
`int`, `slice`, `str`, or anything else. -/
inductive IndexArg where
  | int (i : Int)
  | slice (lo hi : Option Int)
  | str (s : String)
  | other

/-- Python list indexing `l[i]`: negative indices count from the end,
out-of-range indices raise `IndexError`. -/
def pyGetInt (l : List α) (i : Int) : Except PyErr α :=
  let j : Int := if i < 0 then (l.length : Int) + i else i
  if 0 ≤ j then
    match l.get? j.toNat with
    | some x => .ok x
    | none => .error .indexError
  else .error .indexError

/-- One bound of a Python slice `l[lo:hi]` (step 1): `none` falls back to the
default, negative values count from the end (clamped at 0), large values are
clamped at the length. -/
def sliceBound (n : Nat) (dflt : Nat) : Option Int → Nat
  | none => dflt
  | some i => if i < 0 then ((n : Int) + i).toNat else min i.toNat n

/-- Python list slicing `l[lo:hi]` with step 1. -/
def pySlice (l : List α) (lo hi : Option Int) : List α :=
  (l.take (sliceBound l.length l.length hi)).drop (sliceBound l.length 0 lo)

/-- The generator `(mach[progname] for mach in self)` consumed by
`ConcurrentCommand(*...)`: the first machine whose lookup raises propagates
its error. -/
def collectLookups (machines : List Machine) (progname : String) :
    Except PyErr (List Cmd) :=
  match machines with
  | [] => .ok []
  | m :: rest => do
      let c ← m.lookup progname
      let cs ← collectLookups rest progname
      .ok (c :: cs)

/-- `Cluster.__getitem__`: `int` indexes the machine list, `slice` builds a
sub-cluster, any other non-`str` type raises `TypeError`, a `str` on an empty
cluster raises `EmptyCluster`, and otherwise a `ConcurrentCommand` over every
machine's lookup is returned. -/
def Cluster.getitem (c : Cluster) (arg : IndexArg) : Except PyErr GetItemResult :=
  match arg with
  | .int i => (pyGetInt c.machines i).map .machine
  | .slice lo hi => .ok (.subcluster ⟨pySlice c.machines lo hi⟩)
  | .other => .error .typeError
  | .str s =>
      if c.machines.isEmpty then .error .emptyCluster
      else (collectLookups c.machines s).map fun cmds => .command (.concurrent cmds)

/-- `Cluster.which`: the broadcast `[mach.which(progname) for mach in self]`. -/
def Cluster.which (c : Cluster) (progname : String) : List String :=
  c.machines.map fun m => m.whichPath progname

/-- `Cluster.__contains__`: try the indexing operation; `CommandNotFound`
becomes `False`, success becomes `True`, anything else propagates. -/
def Cluster.contains (c : Cluster) (arg : IndexArg) : Except PyErr Bool :=
  match c.getitem arg with
  | .error .commandNotFound => .ok false
  | .error e => .error e
  | .ok _ => .ok true

/-- A machine on which every program resolves (to a one-token command). -/
def machOk : Machine :=
  ⟨fun s => .ok (.basic [s]), fun s => "/bin/" ++ s⟩

/-- A machine whose lookup raises `CommandNotFound` for every program. -/
def machNotFound : Machine :=
  ⟨fun _ => .error .commandNotFound, fun s => s⟩

/-- A machine whose lookup fails with an unrelated transport error. -/
def machTransportDown : Machine :=
  ⟨fun _ => .error .transportError, fun s => s⟩

/-! ### `nested` (used by `Cluster.as_user` / `as_root`)

`Cluster.as_user` enters one `mach.as_user(user)` context per machine through
`nested(*managers)`. The exit phase of the module's own `nested` fallback is
the loop
`while exits: exit = exits.pop(); try: if exit(*exc): exc = (None,None,None)
except: exc = sys.exc_info()`,
followed by re-raising `exc` when it is not the empty exc-info triple.
One machine's `__exit__` call is modelled by what it does: raise, or return a
suppress flag. -/

structure ExitBehavior where
  raises : Option PyErr
  suppress : Bool
  deriving Repr, DecidableEq

/-- One iteration step over the already-popped (LIFO-ordered) exits: a raising
exit replaces the pending exception, a successful exit returning `True`
clears it, and a successful exit returning `False` leaves it. The second
component counts how many exits were attempted. -/
def runExitsRev : List ExitBehavior → Option PyErr → Option PyErr × Nat
  | [], exc => (exc, 0)
  | e :: rest, exc =>
      let exc1 : Option PyErr :=
        match e.raises with
        | some err => some err
        | none => if e.suppress then none else exc
      let r := runExitsRev rest exc1
      (r.1, r.2 + 1)

/-- The exit phase of `nested`: `exits` holds the per-machine `__exit__`
callables in enter order, popped from the end; the result is the exception
re-raised at the end (`none` when exiting cleanly) and the number of exit
calls attempted. -/
def runExits (exits : List ExitBehavior) (exc : Option PyErr) : Option PyErr × Nat :=
  runExitsRev exits.reverse exc

/-! ### `ClusterSession` -/

/-- Modelled from the spec: the external per-machine interactive shell session
(its class lives outside this module); it reports whether it is alive and can
be closed. -/
structure Sess where
  alive : Bool
  closed : Bool
  deriving Repr, DecidableEq

/-- Whether a Python sequence attribute holds a `tuple` or a `list`; only the
latter supports `del seq[:]`. -/
inductive SeqKind where
  | tupleKind
  | listKind
  deriving Repr, DecidableEq

/-- `ClusterSession` state: the `self.sessions` elements plus the kind of
sequence the attribute holds. -/
structure ClusterSession where
  sessions : List Sess
  kind : SeqKind
  deriving Repr, DecidableEq

/-- `ClusterSession.__init__(self, *sessions)`: `self.sessions = sessions`
stores the argument *tuple* as-is (unlike `Cluster.__init__`, which wraps in
`list(...)`). -/
def ClusterSession.init (sessions : List Sess) : ClusterSession :=
  ⟨sessions, .tupleKind⟩

/-- `del seq[:]`: clears a list in place; a tuple does not support item
deletion and raises `TypeError`. -/
def delFullSlice (kind : SeqKind) : Except PyErr (List Sess) :=
  match kind with
  | .listKind => .ok []
  | .tupleKind => .error .typeError

/-- A session's `close()`. -/
def Sess.close (s : Sess) : Sess :=
  { s with closed := true }

/-- `ClusterSession.close`: `session.close()` on every session, then
`del self.sessions[:]`; the raised exception (if any) is the first
component. -/
def ClusterSession.close (cs : ClusterSession) : Option PyErr × ClusterSession :=
  let sessions1 := cs.sessions.map Sess.close
  match delFullSlice cs.kind with
  | .ok l => (none, { cs with sessions := l })
  | .error e => (some e, { cs with sessions := sessions1 })

/-- `ClusterSession.alive`: `all(session.alive for session in self)`. -/
def ClusterSession.alive (cs : ClusterSession) : Bool :=
  cs.sessions.all fun s => s.alive

end Parallel

namespace Parallel

/-- C2: combining three plain commands in either association yields one flat
aggregate with members `[a, b, c]` in order; two plain commands give a fresh
2-element aggregate; an aggregate combined with a plain command inserts the
plain command at the matching end. -/
theorem make_concurrent_flattens (ta tb tc : List String) :
    make_concurrent (make_concurrent (.basic ta) (.basic tb)) (.basic tc)
      = .concurrent [.basic ta, .basic tb, .basic tc] ∧
    make_concurrent (.basic ta) (make_concurrent (.basic tb) (.basic tc))
      = .concurrent [.basic ta, .basic tb, .basic tc] ∧
    make_concurrent (.basic ta) (.basic tb) = .concurrent [.basic ta, .basic tb] ∧
    (∀ cs : List Cmd, make_concurrent (.concurrent cs) (.basic tc)
      = .concurrent (cs ++ [.basic tc])) ∧
    (∀ cs : List Cmd, make_concurrent (.basic ta) (.concurrent cs)
      = .concurrent (.basic ta :: cs)) :=
  ⟨rfl, rfl, rfl, fun _ => rfl, fun _ => rfl⟩

/-- The loop of `formulate` unfolded against an arbitrary accumulator. -/
theorem formulateLoop_eq (cmds : List Cmd) (acc : List String) :
    formulateLoop cmds acc
      = acc ++ (cmds.map (fun c => formulate c ++ ["&"])).flatten := by
  induction cmds generalizing acc with
  | nil => simp [formulateLoop]
  | cons c rest ih =>
      simp only [formulateLoop, List.map_cons, List.flatten_cons, ih]
      simp [List.append_assoc]

/-- C8 counterexample: on a two-member aggregate the code renders a `"&"` after
the *last* member as well, so the token sequence is not the claimed
`( cmd1 & cmd2 )` form with separators only between consecutive members. -/
theorem formulate_not_spec_rendering :
    formulate (.concurrent [.basic ["ls"], .basic ["date"]])
        = ["(", "ls", "&", "date", "&", ")"] ∧
    specFormulate (.concurrent [.basic ["ls"], .basic ["date"]])
        = ["(", "ls", "&", "date", ")"] ∧
    formulate (.concurrent [.basic ["ls"], .basic ["date"]])
        ≠ specFormulate (.concurrent [.basic ["ls"], .basic ["date"]]) := by
  refine ⟨?_, ?_, ?_⟩ <;>
    simp [formulate, formulateLoop, specFormulate, specJoin]

/-- C8 (amended): `formulate` on an aggregate of N members renders an open
parenthesis, then for every member (the last included) that member's
formulated tokens followed by a `"&"` token, then a close parenthesis. -/
theorem formulate_renders_amended (cmds : List Cmd) :
    formulate (.concurrent cmds)
      = ("(" :: (cmds.map (fun c => formulate c ++ ["&"])).flatten) ++ [")"] := by
  simp [formulate, formulateLoop_eq]

/-! ### Poll / wait / communicate -/

/-- `firstNonzero` of an all-zero list is 0. -/
theorem firstNonzero_eq_zero (l : List Int) (h : ∀ x ∈ l, x = 0) :
    firstNonzero l = 0 := by
  induction l with
  | nil => rfl
  | cons x rest ih =>
      have hx : x = 0 := h x (List.mem_cons_self x rest)
      have hrest := ih fun y hy => h y (List.mem_cons_of_mem _ hy)
      simp [firstNonzero, hx, hrest]

/-- `firstNonzero` returns the first non-zero element when one exists. -/
theorem firstNonzero_eq_find (l : List Int) (v : Int)
    (h : l.find? (fun rc => rc != 0) = some v) :
    firstNonzero l = v := by
  induction l with
  | nil => simp [List.find?] at h
  | cons x rest ih =>
      by_cases hx : x = 0
      · subst hx
        rw [List.find?_cons_of_neg _ (by simp)] at h
        simp [firstNonzero, ih h]
      · rw [List.find?_cons_of_pos _ (by simp [hx])] at h
        obtain rfl := Option.some.inj h
        simp [firstNonzero, hx]

/-- Filtering the `some`-wrapped final codes back out gives the codes. -/
theorem filterMap_id_map_some (l : List Proc) :
    (l.map (fun p => some p.finalRc)).filterMap id = l.map Proc.finalRc := by
  induction l with
  | nil => rfl
  | cons a t ih => simp [List.filterMap_cons, ih]

/-- Reduction of the uncached `poll` when every child reports finished. -/
theorem poll_all_finished (procs : List Proc) (h : ∀ p ∈ procs, p.finished = true) :
    ((⟨procs, none⟩ : ConcurrentPopen).poll).1
        = some (firstNonzero (procs.map Proc.finalRc)) ∧
    ((⟨procs, none⟩ : ConcurrentPopen).poll).2.returncode
        = some (firstNonzero (procs.map Proc.finalRc)) := by
  have hrcs : procs.map (Prod.fst ∘ Proc.poll)
      = procs.map (fun p => some p.finalRc) :=
    List.map_congr_left fun p hp => by simp [Proc.poll, h p hp]
  have hany : (procs.map (Prod.fst ∘ Proc.poll)).any (fun rc => rc.isNone) = false := by
    rw [hrcs]
    simp
  have hfm : (procs.map (Prod.fst ∘ Proc.poll)).filterMap id
      = procs.map Proc.finalRc := by
    rw [hrcs, filterMap_id_map_some]
  constructor <;>
    simp only [ConcurrentPopen.poll, List.map_map, hany, hfm, Bool.false_eq_true,
      if_false]

/-- Reduction of the uncached `poll` when some child is still running. -/
theorem poll_some_running (procs : List Proc) (h : ∃ p ∈ procs, p.finished = false) :
    ((⟨procs, none⟩ : ConcurrentPopen).poll).1 = none ∧
    ((⟨procs, none⟩ : ConcurrentPopen).poll).2.returncode = none := by
  obtain ⟨p, hp, hfin⟩ := h
  have hany : (procs.map (Prod.fst ∘ Proc.poll)).any (fun rc => rc.isNone) = true := by
    rw [List.any_eq_true]
    exact ⟨(Prod.fst ∘ Proc.poll) p, List.mem_map_of_mem _ hp,
      by simp [Proc.poll, hfin]⟩
  constructor <;>
    simp only [ConcurrentPopen.poll, List.map_map, hany, if_true]

/-- Reduction of `poll` when a combined status is already cached. -/
theorem poll_cached (cp : ConcurrentPopen) (rc : Int) (h : cp.returncode = some rc) :
    cp.poll = (some rc, cp) := by
  simp only [ConcurrentPopen.poll, h]

/-- After every child is finished, `poll` always leaves a resolved status,
whatever the previous cache. -/
theorem poll_returncode_isSome (procs : List Proc) (rc0 : Option Int)
    (h : ∀ p ∈ procs, p.finished = true) :
    ((⟨procs, rc0⟩ : ConcurrentPopen).poll).2.returncode.isSome = true := by
  cases rc0 with
  | some rc =>
      rw [poll_cached ⟨procs, some rc⟩ rc rfl]
      rfl
  | none =>
      rw [(poll_all_finished procs h).2]
      rfl

/-- C1: with no cached status, if any child still reports running the aggregate
`poll` returns `none` and caches nothing; once all children are finished it
returns (and caches) 0 when every child code is 0, and otherwise the first
non-zero child code in member order. -/
theorem poll_first_failure_wins (procs : List Proc) :
    ((∃ p ∈ procs, p.finished = false) →
        ((⟨procs, none⟩ : ConcurrentPopen).poll.1 = none ∧
         (⟨procs, none⟩ : ConcurrentPopen).poll.2.returncode = none)) ∧
    ((∀ p ∈ procs, p.finished = true) →
        ((⟨procs, none⟩ : ConcurrentPopen).poll.2.returncode =
            (⟨procs, none⟩ : ConcurrentPopen).poll.1 ∧
         ((∀ p ∈ procs, p.finalRc = 0) →
            (⟨procs, none⟩ : ConcurrentPopen).poll.1 = some 0) ∧
         (∀ v, (procs.map Proc.finalRc).find? (fun rc => rc != 0) = some v →
            (⟨procs, none⟩ : ConcurrentPopen).poll.1 = some v))) := by
  constructor
  · intro h
    exact poll_some_running procs h
  · intro h
    have hall := poll_all_finished procs h
    refine ⟨by rw [hall.1, hall.2], ?_, ?_⟩
    · intro hz
      have hz' : ∀ x ∈ procs.map Proc.finalRc, x = 0 := by
        intro x hx
        obtain ⟨p, hp, rfl⟩ := List.mem_map.mp hx
        exact hz p hp
      rw [hall.1, firstNonzero_eq_zero _ hz']
    · intro v hv
      rw [hall.1, firstNonzero_eq_find _ _ hv]

/-- C1 witness: child codes `[0, 0, 7, 0, 3]`, all finished, poll to 7. -/
theorem poll_first_failure_wins_witness :
    ((⟨[⟨0, true, "", "", 0⟩, ⟨0, true, "", "", 0⟩, ⟨7, true, "", "", 0⟩,
        ⟨0, true, "", "", 0⟩, ⟨3, true, "", "", 0⟩], none⟩ : ConcurrentPopen).poll).1
      = some 7 :=
  ((poll_first_failure_wins _).2 (by decide)).2.2 7 (by decide)

/-- C7: once `returncode` is cached, `poll` returns it with the state (the
children's poll counters included) unchanged, so no child is queried again and
the cached code is never reset. -/
theorem poll_cached_idempotent (cp : ConcurrentPopen) (rc : Int)
    (h : cp.returncode = some rc) :
    cp.poll = (some rc, cp) ∧
    cp.poll.2.procs = cp.procs ∧
    cp.poll.2.returncode = some rc := by
  have heq := poll_cached cp rc h
  exact ⟨heq, by rw [heq], by rw [heq]; exact h⟩

/-- C7 witness: a cached status 5 is returned as-is on a concrete handle. -/
theorem poll_cached_idempotent_witness :
    ((⟨[⟨7, true, "out", "err", 0⟩], some 5⟩ : ConcurrentPopen).poll
        = (some 5, ⟨[⟨7, true, "out", "err", 0⟩], some 5⟩)) :=
  (poll_cached_idempotent ⟨[⟨7, true, "out", "err", 0⟩], some 5⟩ 5 rfl).1

/-- C3: `communicate` raises `ValueError` exactly on truthy (non-empty) input;
otherwise it returns `ok` with the children's outputs transposed into
`[stdouts, stderrs]` in member order, and the final `wait()` leaves the
aggregate status resolved. -/
theorem communicate_rejects_input_and_transposes (cp : ConcurrentPopen)
    (input : Option String) :
    (pyTruthy input = true →
       (cp.communicate input).1 = .error .valueError ∧
       (cp.communicate input).2 = cp) ∧
    (pyTruthy input = false →
       (∃ r, (cp.communicate input).1 = .ok r) ∧
       (cp.procs ≠ [] →
          (cp.communicate input).1
            = .ok [cp.procs.map Proc.out, cp.procs.map Proc.err]) ∧
       (cp.communicate input).2.returncode.isSome = true) := by
  constructor
  · intro h
    simp [ConcurrentPopen.communicate, h]
  · intro h
    have hok : (cp.communicate input).1
        = .ok (zipStar (cp.procs.map (fun p => (p.out, p.err)))) := by
      simp only [ConcurrentPopen.communicate, h, Bool.false_eq_true, if_false,
        List.map_map]
      rfl
    refine ⟨⟨_, hok⟩, ?_, ?_⟩
    · intro hne
      rw [hok]
      have hne' : (cp.procs.map (fun p => (p.out, p.err))).isEmpty = false := by
        simp [List.isEmpty_iff, hne]

      simp only [zipStar, hne', Bool.false_eq_true, if_false, List.map_map]
      rfl
    · simp only [ConcurrentPopen.communicate, h, Bool.false_eq_true, if_false,
        ConcurrentPopen.wait, List.map_map]
      exact poll_returncode_isSome _ _ (by
        intro p hp
        obtain ⟨q, _, rfl⟩ := List.mem_map.mp hp
        rfl)

/-- C3 witness: two finished children, empty input, outputs transposed. -/
theorem communicate_witness :
    ((⟨[⟨0, true, "o1", "e1", 0⟩, ⟨0, true, "o2", "e2", 0⟩], none⟩ :
        ConcurrentPopen).communicate none).1
      = .ok [["o1", "o2"], ["e1", "e2"]] :=
  ((communicate_rejects_input_and_transposes
      ⟨[⟨0, true, "o1", "e1", 0⟩, ⟨0, true, "o2", "e2", 0⟩], none⟩ none).2
    rfl).2.1 (by decide)

/-! ### Cluster indexing and membership -/

/-- C4 counterexample: indexing a one-machine cluster with the integer 0
returns that machine, not a `TypeError`, so non-string indices do not all
fail with an "unsupported index type" error. -/
theorem cluster_int_index_not_typeError :
    (⟨[machOk]⟩ : Cluster).getitem (.int 0) = .ok (.machine machOk) ∧
    (⟨[machOk]⟩ : Cluster).getitem (.int 0) ≠ .error .typeError := by
  have h1 : (⟨[machOk]⟩ : Cluster).getitem (.int 0) = .ok (.machine machOk) := rfl
  exact ⟨h1, by rw [h1]; exact fun h => Except.noConfusion h⟩

/-- C4 (amended): `int` indices return the machine at that position and
`slice` indices return a sub-cluster; only index types other than `int`,
`slice` and `str` raise `TypeError`; a string index on an empty cluster
raises `EmptyCluster`, while `which` on the empty cluster returns `[]`. -/
theorem cluster_getitem_amended (c : Cluster) (s : String) :
    c.getitem .other = .error .typeError ∧
    (c.machines = [] →
        c.getitem (.str s) = .error .emptyCluster ∧ c.which s = []) ∧
    (∀ i : Int, 0 ≤ i → i < (c.machines.length : Int) →
        ∃ m, c.machines.get? i.toNat = some m ∧
          c.getitem (.int i) = .ok (.machine m)) ∧
    (∀ lo hi, c.getitem (.slice lo hi) = .ok (.subcluster ⟨pySlice c.machines lo hi⟩)) := by
  refine ⟨rfl, ?_, ?_, fun lo hi => rfl⟩
  · intro h
    exact ⟨by simp [Cluster.getitem, h], by simp [Cluster.which, h]⟩
  · intro i h0 hn
    have hlt : i.toNat < c.machines.length := by omega
    have hm : c.machines.get? i.toNat = some (c.machines.get ⟨i.toNat, hlt⟩) :=
      List.get?_eq_get hlt
    refine ⟨_, hm, ?_⟩
    have hnneg : ¬ i < 0 := by omega
    simp only [Cluster.getitem, pyGetInt, hnneg, if_false, h0, if_pos, hm]
    rfl

/-- C4 witness: the empty cluster rejects `"ls"` with `EmptyCluster` but its
`which` broadcast returns `[]`; integer indexing a one-machine cluster
returns the machine. -/
theorem cluster_getitem_amended_witness :
    ((⟨[]⟩ : Cluster).getitem (.str "ls") = .error .emptyCluster ∧
     (⟨[]⟩ : Cluster).which "ls" = []) ∧
    (∃ m, (⟨[machOk]⟩ : Cluster).machines.get? 0 = some m ∧
       (⟨[machOk]⟩ : Cluster).getitem (.int 0) = .ok (.machine m)) :=
  ⟨(cluster_getitem_amended ⟨[]⟩ "ls").2.1 rfl,
   (cluster_getitem_amended ⟨[machOk]⟩ "ls").2.2.1 0 (by decide) (by decide)⟩

/-- C5: membership returns `ok false` exactly when indexing fails with
`CommandNotFound`, `ok true` when indexing succeeds, and re-raises every
other error unchanged. -/
theorem cluster_contains_spec (c : Cluster) (arg : IndexArg) :
    (c.getitem arg = .error .commandNotFound → c.contains arg = .ok false) ∧
    (∀ r, c.getitem arg = .ok r → c.contains arg = .ok true) ∧
    (∀ e, e ≠ PyErr.commandNotFound → c.getitem arg = .error e →
        c.contains arg = .error e) ∧
    (c.contains arg = .ok false → c.getitem arg = .error .commandNotFound) := by
  refine ⟨?_, ?_, ?_, ?_⟩
  · intro h
    simp [Cluster.contains, h]
  · intro r h
    simp [Cluster.contains, h]
  · intro e he h
    cases e <;> first
      | exact absurd rfl he
      | simp [Cluster.contains, h]
  · intro h
    cases hg : c.getitem arg with
    | ok r => simp [Cluster.contains, hg] at h
    | error e => cases e <;> simp_all [Cluster.contains]

/-- C5 witness: a machine lacking the program yields `ok false`; one that
resolves it yields `ok true`; a transport failure propagates unchanged. -/
theorem cluster_contains_witness :
    (⟨[machNotFound]⟩ : Cluster).contains (.str "ls") = .ok false ∧
    (⟨[machOk]⟩ : Cluster).contains (.str "ls") = .ok true ∧
    (⟨[machTransportDown]⟩ : Cluster).contains (.str "ls")
        = .error .transportError :=
  ⟨(cluster_contains_spec ⟨[machNotFound]⟩ (.str "ls")).1 rfl,
   (cluster_contains_spec ⟨[machOk]⟩ (.str "ls")).2.1
     (.command (.concurrent [.basic ["ls"]])) rfl,
   (cluster_contains_spec ⟨[machTransportDown]⟩ (.str "ls")).2.2.1
     .transportError (by simp) rfl⟩

/-! ### `nested` exit guarantees and `ClusterSession` -/

/-- The exit loop attempts exactly one call per registered exit. -/
theorem runExitsRev_count (l : List ExitBehavior) (exc : Option PyErr) :
    (runExitsRev l exc).2 = l.length := by
  induction l generalizing exc with
  | nil => rfl
  | cons e rest ih => simp [runExitsRev, ih]

/-- With no suppressing exit, a pending exception survives the loop. -/
theorem runExitsRev_preserves (l : List ExitBehavior) (exc : Option PyErr)
    (h : ∀ e ∈ l, e.suppress = false) (hexc : exc.isSome = true) :
    ((runExitsRev l exc).1).isSome = true := by
  induction l generalizing exc with
  | nil => exact hexc
  | cons e rest ih =>
      have hrest : ∀ x ∈ rest, x.suppress = false :=
        fun x hx => h x (List.mem_cons_of_mem _ hx)
      have he : e.suppress = false := h e (List.mem_cons_self e rest)
      cases hr : e.raises with
      | some err => simpa [runExitsRev, hr] using ih (some err) hrest rfl
      | none => simpa [runExitsRev, hr, he] using ih exc hrest hexc

/-- With no suppressing exit, a raising exit leaves an exception pending. -/
theorem runExitsRev_isSome (l : List ExitBehavior) (exc : Option PyErr)
    (h : ∀ e ∈ l, e.suppress = false) (h2 : ∃ e ∈ l, e.raises.isSome = true) :
    ((runExitsRev l exc).1).isSome = true := by
  induction l generalizing exc with
  | nil => simp at h2
  | cons e rest ih =>
      have hrest : ∀ x ∈ rest, x.suppress = false :=
        fun x hx => h x (List.mem_cons_of_mem _ hx)
      have he : e.suppress = false := h e (List.mem_cons_self e rest)
      cases hr : e.raises with
      | some err =>
          simpa [runExitsRev, hr] using runExitsRev_preserves rest (some err) hrest rfl
      | none =>
          obtain ⟨x, hx, hxs⟩ := h2
          rcases List.mem_cons.mp hx with rfl | hx'
          · rw [hr] at hxs
            cases hxs
          · simpa [runExitsRev, hr, he] using ih exc hrest ⟨x, hx', hxs⟩

/-- C6: whatever the per-machine exits do, the `nested` exit phase attempts
every registered exit; and when no exit suppresses and at least one exit
raises, an exception is still pending — hence re-raised — after all exits
have been attempted. -/
theorem nested_exits_all_attempted (exits : List ExitBehavior) (exc0 : Option PyErr) :
    (runExits exits exc0).2 = exits.length ∧
    ((∀ e ∈ exits, e.suppress = false) → (∃ e ∈ exits, e.raises.isSome = true) →
        ((runExits exits exc0).1).isSome = true) := by
  constructor
  · rw [runExits, runExitsRev_count, List.length_reverse]
  · intro h h2
    obtain ⟨e, he, hes⟩ := h2
    exact runExitsRev_isSome _ exc0 (fun x hx => h x (List.mem_reverse.mp hx))
      ⟨e, List.mem_reverse.mpr he, hes⟩

/-- C6 witness: machine 1's exit raises, machine 2's exit succeeds; both are
attempted and the exception is re-raised. -/
theorem nested_exits_witness :
    (runExits [⟨some .transportError, false⟩, ⟨none, false⟩] none).2 = 2 ∧
    ((runExits [⟨some .transportError, false⟩, ⟨none, false⟩] none).1).isSome = true :=
  ⟨(nested_exits_all_attempted [⟨some .transportError, false⟩, ⟨none, false⟩] none).1,
   (nested_exits_all_attempted [⟨some .transportError, false⟩, ⟨none, false⟩] none).2
     (by decide) (by decide)⟩

/-- C9 (code bug): `close()` on a `ClusterSession` does close every underlying
session, but `self.sessions` is the constructor's argument *tuple*, so the
clearing statement `del self.sessions[:]` raises `TypeError` and the sequence
is never cleared — explicit `close()` is neither idempotent nor
exception-free. Evaluated at a concrete two-session handle. -/
theorem clusterSession_close_raises :
    ((ClusterSession.init [⟨true, false⟩, ⟨true, false⟩]).close).1
        = some PyErr.typeError ∧
    ((ClusterSession.init [⟨true, false⟩, ⟨true, false⟩]).close).2.sessions
        = [⟨true, true⟩, ⟨true, true⟩] := by
  decide

/-- C10: the aggregate `alive()` is `true` iff every underlying session
reports alive; a single non-alive session makes it `false`. -/
theorem clusterSession_alive_iff (cs : ClusterSession) :
    (cs.alive = true ↔ ∀ s ∈ cs.sessions, s.alive = true) ∧
    ((∃ s ∈ cs.sessions, s.alive = false) → cs.alive = false) := by
  have hall : cs.alive = true ↔ ∀ s ∈ cs.sessions, s.alive = true := by
    simp [ClusterSession.alive, List.all_eq_true]
  refine ⟨hall, ?_⟩
  rintro ⟨s, hs, hdead⟩
  cases ha : cs.alive with
  | false => rfl
  | true =>
      have := hall.mp ha s hs
      rw [this] at hdead
      cases hdead

/-- C10 witness: two alive sessions aggregate to alive; adding a dead session
aggregates to not alive. -/
theorem clusterSession_alive_witness :
    (ClusterSession.init [⟨true, false⟩, ⟨true, false⟩]).alive = true ∧
    (ClusterSession.init [⟨true, false⟩, ⟨false, false⟩]).alive = false :=
  ⟨(clusterSession_alive_iff (ClusterSession.init [⟨true, false⟩, ⟨true, false⟩])).1.mpr
      (by decide),
   (clusterSession_alive_iff (ClusterSession.init [⟨true, false⟩, ⟨false, false⟩])).2
      ⟨⟨false, false⟩, by decide, rfl⟩⟩

end Parallel
